import Mathlib

/-!
Shallow embedding of `scripts/wb2_expand_climatology.py`: a script that expands
a periodic climatology dataset (indexed by `dayofyear`, optionally also `hour`)
into a dense time series written as a chunked store.

Conventions of the embedding:
* Python integers are `Int`; timestamps are integer hours on an absolute axis.
* A pandas timestamp is represented by exactly the fields the script reads from
  it: its absolute value (used as the `time` coordinate label), `dt.dayofyear`
  and `dt.hour` (structure `Timestamp`).
* Fallible Python operations are `Except`: label lookup via `Dataset.sel`
  (KeyError on a missing label), `del ds.coords[name]` (KeyError on a missing
  coordinate), `input_chunks['dayofyear']` (KeyError on a missing dict key),
  `math.ceil(a / b)` with `b = 0` (ZeroDivisionError) and
  `climatology.hour[1]` on a short coordinate (IndexError).
* `pd.date_range(start, stop, freq)` is modelled for positive `freq` — the
  only case a well-formed climatology produces; for `freq <= 0` the model
  returns the empty index, and theorems about it assume a positive step.
* An xarray dataset appears at the granularity the script uses: its data
  variable names, its dimension names, and the label vectors of its periodic
  coordinates.  A selected chunk records, per output timestamp, the positions
  of the source records it selects, which determines the selected values.
-/

set_option autoImplicit false

/-- A pandas timestamp, represented by the fields the script reads from it:
the absolute time value (the `time` coordinate label), `dt.dayofyear` and
`dt.hour`. -/
structure Timestamp where
  t : Int
  doy : Nat
  hour : Nat
  deriving DecidableEq, Repr

/-- The climatology dataset, at the granularity the script inspects it:
data variable names, dimension names, the `dayofyear` coordinate labels and
the optional `hour` coordinate labels. -/
structure Dataset where
  dataVars : List String
  dims : List String
  dayofyear : List Nat
  hourCoord : Option (List Nat)
  deriving DecidableEq, Repr

/-- Errors raised inside `select_climatology`: a `.sel` label miss (KeyError)
and `del chunk.coords[name]` on an absent coordinate (KeyError). -/
inductive SelError where
  | lookupError (coord : String) (value : Nat)
  | coordKeyError (coord : String)
  deriving DecidableEq, Repr

/-- Errors raised in `main` before the pipeline runs: `climatology.hour[1]`
out of bounds (IndexError), `input_chunks['dayofyear']` missing (KeyError),
`math.ceil(times.size / 0)` (ZeroDivisionError). -/
inductive MainError where
  | indexError
  | keyError (key : String)
  | zeroDivisionError
  deriving DecidableEq, Repr

/-- An `xbeam.Key`: the chunk's offset along the `time` dimension plus the
names of the variables the fragment covers. -/
structure Key where
  timeOffset : Int
  vars : List String
  deriving DecidableEq, Repr

/-- The result of `climatology.sel(...)` as the script manipulates it: the
data variables, the selected output timestamps (the `time` dimension), the
per-timestamp positions of the selected `dayofyear` (and, when the `hour`
coordinate exists, `hour`) records, and the names of the coordinates
currently attached to the result. -/
structure Chunk where
  dataVars : List String
  times : List Timestamp
  selDoyPos : List Nat
  selHourPos : Option (List Nat)
  coords : List String
  deriving DecidableEq, Repr

/-- Python list slicing `l[s:e]` for nonnegative bounds (the script only
slices with `start = i * chunk_size >= 0`). -/
def pySlice {α : Type} (s e : Int) (l : List α) : List α :=
  (l.drop s.toNat).take (e - s).toNat

/-- Sequential fallible map, the embedding of a vectorized xarray operation
that fails on the first offending element. -/
def mapE {α β ε : Type} (f : α → Except ε β) : List α → Except ε (List β)
  | [] => Except.ok []
  | a :: l => do
    let b ← f a
    let bs ← mapE f l
    Except.ok (b :: bs)

/-- Label-based lookup of one value in a coordinate's label vector, as
`.sel` performs it: the position of the label, or a KeyError. -/
def labelPos : List Nat → String → Nat → Except SelError Nat
  | [], coordName, v => Except.error (SelError.lookupError coordName v)
  | x :: labels, coordName, v =>
    if x = v then Except.ok 0
    else (labelPos labels coordName v).map (· + 1)

/-- `del chunk.coords[name]`: KeyError when the coordinate is absent. -/
def delCoord (c : Chunk) (name : String) : Except SelError Chunk :=
  if name ∈ c.coords then Except.ok { c with coords := c.coords.erase name }
  else Except.error (SelError.coordKeyError name)

/-- `chunk[[variable_name]]`: restrict the chunk to a single data variable,
keeping everything else. -/
def restrictVar (c : Chunk) (v : String) : Chunk :=
  { c with dataVars := [v] }

/-- Embedding of `select_climatology(time_slice, climatology, time_index)`
(source lines 57-77): slice the time index, select by `dayofyear` (and
`hour` when that coordinate exists) with label lookups, delete the
now-redundant coordinates exactly as the script does (`dayofyear` then
`hour` in the hour branch; `hour` in the no-hour branch), then emit one
`(key, single-variable fragment)` pair per data variable. -/
def select_climatology (time_slice : Int × Int) (climatology : Dataset)
    (time_index : List Timestamp) : Except SelError (List (Key × Chunk)) := do
  let chunk_times := pySlice time_slice.1 time_slice.2 time_index
  let chunk ←
    match climatology.hourCoord with
    | some hourLabels => do
      let doyPos ← mapE (fun ts => labelPos climatology.dayofyear "dayofyear" ts.doy)
        chunk_times
      let hourPos ← mapE (fun ts => labelPos hourLabels "hour" ts.hour) chunk_times
      let chunk0 : Chunk :=
        ⟨climatology.dataVars, chunk_times, doyPos, some hourPos,
          ["time", "dayofyear", "hour"]⟩
      let chunk1 ← delCoord chunk0 "dayofyear"
      delCoord chunk1 "hour"
    | none => do
      let doyPos ← mapE (fun ts => labelPos climatology.dayofyear "dayofyear" ts.doy)
        chunk_times
      let chunk0 : Chunk :=
        ⟨climatology.dataVars, chunk_times, doyPos, none, ["time", "dayofyear"]⟩
      delCoord chunk0 "hour"
  Except.ok (chunk.dataVars.map (fun v => (⟨time_slice.1, [v]⟩, restrictVar chunk v)))

/-- The run configuration of `main`: the `time_start`, `time_stop` and
optional `time_chunk_size` flags (timestamps already parsed to the absolute
hour axis). -/
structure Config where
  time_start : Int
  time_stop : Int
  time_chunk_size : Option Int
  deriving DecidableEq, Repr

/-- `time_dims` (source lines 83-88): the periodic time dimensions of the
input. -/
def timeDimsOf (climatology : Dataset) : List String :=
  match climatology.hourCoord with
  | none => ["dayofyear"]
  | some _ => ["hour", "dayofyear"]

/-- `hour_delta` (source lines 83-88): 24 without an `hour` coordinate, else
`(climatology.hour[1] - climatology.hour[0]).item()`; the unguarded positional
reads raise IndexError when the coordinate has fewer than two entries. -/
def hourDeltaOf (climatology : Dataset) : Except MainError Int :=
  match climatology.hourCoord with
  | none => Except.ok 24
  | some hourLabels =>
    match hourLabels with
    | h0 :: h1 :: _ => Except.ok ((h1 : Int) - (h0 : Int))
    | _ => Except.error MainError.indexError

/-- `pd.date_range(start, stop, freq)` for a positive frequency: the
timestamps `start, start + step, ...` up to and including the last one
`<= stop`; empty when `stop < start`.  (For `freq <= 0`, which the script
only produces from a degenerate `hour` coordinate, the model returns the
empty index.) -/
def date_range (start stop step : Int) : List Int :=
  if 0 < step ∧ start ≤ stop then
    (List.range ((stop - start).toNat / step.toNat + 1)).map
      (fun (i : Nat) => start + step * (i : Int))
  else []

/-- Resolution of `time_chunk_size` (source lines 100-103): the explicit flag
if set, else `input_chunks['dayofyear'] * input_chunks.get('hour', 1)`. -/
def resolveTimeChunkSize (flagValue : Option Int)
    (input_chunks : List (String × Int)) : Except MainError Int :=
  match flagValue with
  | none =>
    match List.lookup "dayofyear" input_chunks with
    | none => Except.error (MainError.keyError "dayofyear")
    | some d => Except.ok (d * ((List.lookup "hour" input_chunks).getD 1))
  | some v => Except.ok v

/-- `ceilDivInt a b = ceil(a / b)` for `b ≠ 0`, via `ceil x = -floor (-x)`
and floor division `Int.fdiv`. -/
def ceilDivInt (a b : Int) : Int :=
  -(Int.fdiv (-a) b)

/-- `math.ceil(a / b)`: ZeroDivisionError when `b = 0`. -/
def ceilDivE (a b : Int) : Except MainError Int :=
  if b = 0 then Except.error MainError.zeroDivisionError
  else Except.ok (ceilDivInt a b)

/-- Python dict assignment `d[k] = v`: overwrite in place if the key exists,
else append. -/
def dictSet (d : List (String × Int)) (k : String) (v : Int) :
    List (String × Int) :=
  if (List.lookup k d).isSome then
    d.map (fun p => if p.1 = k then (k, v) else p)
  else d ++ [(k, v)]

/-- `output_chunks` (source lines 107-108): `-1` (one chunk spanning the
whole dimension) for every input dimension not among the time dims, then
`output_chunks['time'] = time_chunk_size`. -/
def outputChunksOf (input_chunks : List (String × Int)) (time_dims : List String)
    (time_chunk_size : Int) : List (String × Int) :=
  dictSet
    ((input_chunks.filter (fun p => decide (p.1 ∉ time_dims))).map
      (fun p => (p.1, (-1 : Int))))
    "time" time_chunk_size

/-- The chunk-start offsets `[i * time_chunk_size for i in range(count)]`
(source line 117). -/
def timeChunkStarts (count : Nat) (time_chunk_size : Int) : List Int :=
  (List.range count).map (fun (i : Nat) => (i : Int) * time_chunk_size)

/-- `lambda start: slice(start, start + time_chunk_size)` mapped over the
starts (source line 118). -/
def workSlices (time_chunk_size : Int) (starts : List Int) : List (Int × Int) :=
  starts.map (fun s => (s, s + time_chunk_size))

/-- The dimensions of the output template (source lines 94-98):
`make_template(climatology).isel({dim: 0 for dim in time_dims}, drop=True)
.expand_dims(time=times)` — the input's dimensions with the periodic time
dims collapsed away and a leading `time` dimension added. -/
def templateDimsOf (climatology : Dataset) (time_dims : List String) :
    List String :=
  "time" :: climatology.dims.filter (fun d => decide (d ∉ time_dims))

/-- Everything `main` computes before (and feeds into) the pipeline. -/
structure MainResult where
  times : List Int
  time_chunk_size : Int
  time_chunk_count : Int
  template : List String
  output_chunks : List (String × Int)
  workItems : List (Int × Int)
  deriving DecidableEq, Repr

/-- Embedding of `main` (source lines 80-123) up to the point where the Beam
pipeline is assembled: derive `hour_delta` and `time_dims`, build the time
index, the template, the resolved chunk size, the chunk count, the output
chunk layout and the list of work-item slices handed to `beam.Create`. -/
def wb2Main (cfg : Config) (climatology : Dataset)
    (input_chunks : List (String × Int)) : Except MainError MainResult := do
  let hour_delta ← hourDeltaOf climatology
  let time_dims := timeDimsOf climatology
  let times := date_range cfg.time_start cfg.time_stop hour_delta
  let template := templateDimsOf climatology time_dims
  let time_chunk_size ← resolveTimeChunkSize cfg.time_chunk_size input_chunks
  let time_chunk_count ← ceilDivE (times.length : Int) time_chunk_size
  let output_chunks := outputChunksOf input_chunks time_dims time_chunk_size
  let workItems :=
    workSlices time_chunk_size (timeChunkStarts time_chunk_count.toNat time_chunk_size)
  Except.ok ⟨times, time_chunk_size, time_chunk_count, template, output_chunks,
    workItems⟩

/-! Concrete instances used in counterexamples and witnesses. -/

/-- A daily climatology (no `hour` coordinate), one variable. -/
def climDaily : Dataset := ⟨["temperature"], ["dayofyear", "longitude"], [1, 2], none⟩

/-- A one-element time index whose timestamp falls on day-of-year 1. -/
def tiDaily : List Timestamp := [⟨0, 1, 0⟩]

/-- A daily climatology with two variables. -/
def climDaily2 : Dataset := ⟨["t2m", "msl"], ["dayofyear", "latitude"], [1], none⟩

/-- A two-element time index on day-of-year 1. -/
def tiDaily2 : List Timestamp := [⟨0, 1, 0⟩, ⟨24, 1, 0⟩]

/-- An hourly climatology: two variables, hour coordinate `[0, 12]`. -/
def climHourly : Dataset :=
  ⟨["a", "b"], ["hour", "dayofyear", "lat"], [1, 2], some [0, 12]⟩

/-- A two-element time index matching `climHourly`'s labels. -/
def tiHourly : List Timestamp := [⟨0, 1, 0⟩, ⟨12, 1, 12⟩]

/-- A daily climatology missing day-of-year 366. -/
def climLeap : Dataset := ⟨["z"], ["dayofyear"], [1, 2, 3], none⟩

/-- A time index containing a leap-day timestamp (day-of-year 366). -/
def tiLeap : List Timestamp := [⟨8784, 366, 0⟩]

/-- An hourly climatology whose `hour` coordinate has exactly one entry. -/
def climOneHour : Dataset := ⟨["q"], ["hour", "dayofyear", "level"], [1, 2], some [0]⟩

/-- A configuration whose `time_stop` precedes `time_start`. -/
def cfgStopBeforeStart : Config := ⟨240, 0, some 7⟩

/-- Native chunk extents of a daily input. -/
def icDaily : List (String × Int) := [("dayofyear", 30)]

/-- Native chunk extents of an hourly input with a latitude dimension. -/
def icHourly : List (String × Int) := [("dayofyear", 30), ("hour", 4), ("latitude", 64)]

/-- The derived (day-of-year, hour) pair of a timestamp is absent from the
climatology's coordinate labels (the hour part applying only when the `hour`
coordinate exists). -/
def pairAbsent (climatology : Dataset) (ts : Timestamp) : Prop :=
  ts.doy ∉ climatology.dayofyear ∨
    match climatology.hourCoord with
    | some hourLabels => ts.hour ∉ hourLabels
    | none => False

/-! Helper lemmas. -/

@[simp] lemma exceptOkBind {ε α β : Type} (a : α) (f : α → Except ε β) :
    (Except.ok a : Except ε α) >>= f = f a := rfl

@[simp] lemma exceptErrorBind {ε α β : Type} (e : ε) (f : α → Except ε β) :
    (Except.error e : Except ε α) >>= f = Except.error e := rfl

lemma ceilDivInt_natCast (len c : Nat) (hc : 0 < c) :
    ceilDivInt (len : Int) (c : Int) = (((len + c - 1) / c : Nat) : Int) := by
  cases c with
  | zero => exact absurd hc (by omega)
  | succ n =>
    cases len with
    | zero =>
      have h1 : ceilDivInt ((0 : Nat) : Int) ((n + 1 : Nat) : Int) = 0 := by
        simp [ceilDivInt]
      rw [h1]
      have h2 : (0 + (n + 1) - 1) / (n + 1) = 0 := Nat.div_eq_of_lt (by omega)
      rw [h2]
      rfl
    | succ m =>
      have h1 : ceilDivInt ((m + 1 : Nat) : Int) ((n + 1 : Nat) : Int)
          = ((m / (n + 1) + 1 : Nat) : Int) := rfl
      rw [h1]
      have h2 : (m + 1 + (n + 1) - 1) / (n + 1) = m / (n + 1) + 1 := by
        have h3 : m + 1 + (n + 1) - 1 = m + (n + 1) := by omega
        rw [h3, Nat.add_div_right _ (by omega)]
      rw [h2]

lemma ceilDivInt_toNat_of_neg (len : Nat) (cs : Int) (h : cs < 0) :
    (ceilDivInt (len : Int) cs).toNat = 0 := by
  cases cs with
  | ofNat n => exact absurd h (by rw [Int.ofNat_eq_natCast]; omega)
  | negSucc k =>
    cases len with
    | zero => simp [ceilDivInt]
    | succ m =>
      have h1 : ceilDivInt ((m + 1 : Nat) : Int) (Int.negSucc k)
          = -(((m + 1) / (k + 1) : Nat) : Int) := rfl
      rw [h1]
      exact Int.toNat_of_nonpos (neg_nonpos.mpr (Int.natCast_nonneg _))

/-- C1: the claim says that for a climatology without an `hour` coordinate,
`select_climatology` drops the `hour` slot, removes the `dayofyear`
coordinate and succeeds.  The code instead executes
`del chunk.coords['hour']` in the no-hour branch (source line 73), which
raises a KeyError because that coordinate does not exist there, and it never
removes `dayofyear`; this evaluation exhibits the failure on a concrete
daily climatology and slice. -/
theorem select_climatology_no_hour_branch_fails :
    select_climatology (0, 1) climDaily tiDaily =
      Except.error (SelError.coordKeyError "hour") := by
  rfl

/-- C2 counterexample: with `time_stop` preceding `time_start` (and a
positive explicit chunk size) the program does not fail with a
ConfigurationError — no such check exists in the code.  It succeeds, with an
empty time index and no work items. -/
theorem main_stop_before_start_no_error :
    wb2Main cfgStopBeforeStart climDaily icDaily =
      Except.ok ⟨[], 7, 0, ["time", "longitude"], [("time", 7)], []⟩ := by
  rfl

/-- C2 amended: the code never raises a ConfigurationError.  When the
resolved chunk size is zero, the chunk-count computation fails with a
ZeroDivisionError; when it is negative, the run succeeds creating no work
items; when `time_stop` precedes `time_start` (and the chunk size is
nonzero), the run succeeds with an empty time index and no work items. -/
theorem main_degenerate_config (cfg : Config) (climatology : Dataset)
    (input_chunks : List (String × Int)) (d cs : Int)
    (hd : hourDeltaOf climatology = Except.ok d) (_hdpos : 0 < d)
    (hcs : resolveTimeChunkSize cfg.time_chunk_size input_chunks = Except.ok cs) :
    (cs = 0 → wb2Main cfg climatology input_chunks =
      Except.error MainError.zeroDivisionError) ∧
    (cs < 0 → ∃ r, wb2Main cfg climatology input_chunks = Except.ok r ∧
      r.workItems = []) ∧
    (cfg.time_stop < cfg.time_start → cs ≠ 0 →
      ∃ r, wb2Main cfg climatology input_chunks = Except.ok r ∧
        r.times = [] ∧ r.workItems = []) := by
  refine ⟨?_, ?_, ?_⟩
  · intro h0
    subst h0
    simp [wb2Main, hd, hcs, ceilDivE]
  · intro hneg
    have hne : cs ≠ 0 := by omega
    simp only [wb2Main, hd, hcs, exceptOkBind, ceilDivE, if_neg hne]
    refine ⟨_, rfl, ?_⟩
    simp [workSlices, timeChunkStarts, ceilDivInt_toNat_of_neg _ _ hneg]
  · intro hlt hne
    have hdr : date_range cfg.time_start cfg.time_stop d = [] := by
      rw [date_range, if_neg]
      intro hcon
      exact absurd hcon.2 (by omega)
    simp only [wb2Main, hd, hcs, exceptOkBind, hdr, List.length_nil, ceilDivE,
      if_neg hne, Nat.cast_zero]
    refine ⟨_, rfl, rfl, ?_⟩
    have h0 : ceilDivInt 0 cs = 0 := by simp [ceilDivInt]
    simp [workSlices, timeChunkStarts, h0]

/-- Witness for the amended C2: a concrete run with `time_stop` before
`time_start` and explicit chunk size 7 succeeds with no times and no work
items. -/
theorem main_degenerate_config_witness :
    ∃ r, wb2Main cfgStopBeforeStart climDaily icDaily = Except.ok r ∧
      r.times = [] ∧ r.workItems = [] :=
  (main_degenerate_config cfgStopBeforeStart climDaily icDaily 24 7 rfl
    (by decide) rfl).2.2 (by decide) (by decide)

/-- C3 counterexample: the claim's length formula
`ceil((time_stop - time_start)/period_step) + 1` fails when the step does
not divide the span: for `start = 0`, `stop = 5`, `step = 2` the produced
index is `[0, 2, 4]` of length 3, while the formula gives `ceil(5/2) + 1 = 4`. -/
theorem date_range_not_ceil :
    date_range 0 5 2 = [0, 2, 4] ∧ (date_range 0 5 2).length ≠ 4 := by
  constructor
  · rfl
  · decide

/-- C3 amended: for a positive step and `time_start <= time_stop`, the time
index has length `floor((time_stop - time_start)/period_step) + 1` (which
equals the claimed `ceil(...) + 1` exactly when the step divides the span),
consecutive entries differ by exactly `period_step`, and the index is
strictly increasing. -/
theorem date_range_grid (start stop step : Int) (hstep : 0 < step)
    (hle : start ≤ stop) :
    (date_range start stop step).length = (stop - start).toNat / step.toNat + 1 ∧
    List.Chain' (fun a b => b = a + step) (date_range start stop step) ∧
    List.Pairwise (fun a b => a < b) (date_range start stop step) := by
  have hif : date_range start stop step =
      (List.range ((stop - start).toNat / step.toNat + 1)).map
        (fun (i : Nat) => start + step * (i : Int)) := by
    rw [date_range, if_pos ⟨hstep, hle⟩]
  have hchain : List.Chain' (fun a b => b = a + step) (date_range start stop step) := by
    rw [hif, List.chain'_map, List.chain'_range_succ]
    intro m hm
    push_cast
    ring
  refine ⟨by rw [hif]; simp, hchain, ?_⟩
  have hlt : List.Chain' (fun a b => a < b) (date_range start stop step) :=
    hchain.imp (fun a b hab => by omega)
  exact List.chain'_iff_pairwise.mp hlt

/-- Witness for the amended C3 at `start = 0`, `stop = 6`, `step = 2`. -/
theorem date_range_grid_witness :
    (date_range 0 6 2).length = ((6 : Int) - 0).toNat / (2 : Int).toNat + 1 ∧
    List.Chain' (fun a b => b = a + 2) (date_range 0 6 2) ∧
    List.Pairwise (fun a b => a < b) (date_range 0 6 2) :=
  date_range_grid 0 6 2 (by decide) (by decide)

/-- C5: the resolved chunk size is the explicit flag when supplied, else the
`dayofyear` chunk extent times the `hour` chunk extent (1 when the `hour`
key is absent); extents `dayofyear = 30, hour = 4` resolve to 120. -/
theorem resolve_time_chunk_size_spec :
    (∀ (ic : List (String × Int)) (v : Int),
      resolveTimeChunkSize (some v) ic = Except.ok v) ∧
    (∀ (ic : List (String × Int)) (d h : Int),
      List.lookup "dayofyear" ic = some d → List.lookup "hour" ic = some h →
      resolveTimeChunkSize none ic = Except.ok (d * h)) ∧
    (∀ (ic : List (String × Int)) (d : Int),
      List.lookup "dayofyear" ic = some d → List.lookup "hour" ic = none →
      resolveTimeChunkSize none ic = Except.ok d) ∧
    resolveTimeChunkSize none [("dayofyear", 30), ("hour", 4)] = Except.ok 120 := by
  refine ⟨fun ic v => rfl, fun ic d h h1 h2 => ?_, fun ic d h1 h2 => ?_, by rfl⟩
  · simp [resolveTimeChunkSize, h1, h2]
  · simp [resolveTimeChunkSize, h1, h2]

/-- Witness for C5: derivation from extents `dayofyear = 30, hour = 4`. -/
theorem resolve_time_chunk_size_spec_witness :
    resolveTimeChunkSize none [("dayofyear", 30), ("hour", 4)] =
      Except.ok (30 * 4) :=
  resolve_time_chunk_size_spec.2.1 [("dayofyear", 30), ("hour", 4)] 30 4 rfl rfl

/-- C7: the claim says every climatology with `k` variables yields exactly
`k` `(key, fragment)` pairs per chunk.  On a climatology without an `hour`
coordinate the generator instead fails (KeyError from
`del chunk.coords['hour']`, source line 73) before yielding anything: this
evaluation shows a two-variable daily climatology and a two-timestamp chunk
producing an error rather than two fragments. -/
theorem select_climatology_two_vars_no_hour_fails :
    select_climatology (0, 2) climDaily2 tiDaily2 =
      Except.error (SelError.coordKeyError "hour") := by
  rfl

/-- A concrete successful run of the hour-coordinate branch, showing the
model is not vacuous there: two variables and a two-timestamp chunk yield
two single-variable fragments, each covering both timestamps, keyed by the
slice start and the variable name, with only the `time` coordinate left. -/
theorem select_climatology_hourly_run :
    select_climatology (0, 2) climHourly tiHourly = Except.ok
      [(⟨0, ["a"]⟩, ⟨["a"], tiHourly, [0, 0], some [0, 1], ["time"]⟩),
        (⟨0, ["b"]⟩, ⟨["b"], tiHourly, [0, 0], some [0, 1], ["time"]⟩)] := by
  rfl

/-- C9: `select_climatology` is embedded as a pure function of its slice,
climatology and time index — the source reads but never writes its shared
inputs and keeps no state between calls — so two runs on the same inputs
produce identical sequences of (key, fragment) pairs. -/
theorem select_climatology_deterministic (time_slice : Int × Int)
    (climatology : Dataset) (time_index : List Timestamp) :
    select_climatology time_slice climatology time_index =
      select_climatology time_slice climatology time_index := rfl

/-- C10: `hour_delta` is read as `hour[1] - hour[0]` without a length guard
(source line 87), so a climatology whose `hour` coordinate has exactly one
entry makes `main` fail with an IndexError before any work item exists; with
at least two entries the delta is exactly `hour[1] - hour[0]`. -/
theorem hour_delta_unguarded :
    (∀ (cfg : Config) (climatology : Dataset) (ic : List (String × Int)) (h0 : Nat),
      climatology.hourCoord = some [h0] →
        wb2Main cfg climatology ic = Except.error MainError.indexError) ∧
    (∀ (climatology : Dataset) (h0 h1 : Nat) (rest : List Nat),
      climatology.hourCoord = some (h0 :: h1 :: rest) →
        hourDeltaOf climatology = Except.ok ((h1 : Int) - (h0 : Int))) := by
  constructor
  · intro cfg climatology ic h0 hh
    have hd : hourDeltaOf climatology = Except.error MainError.indexError := by
      simp [hourDeltaOf, hh]
    simp [wb2Main, hd]
  · intro climatology h0 h1 rest hh
    simp [hourDeltaOf, hh]

/-- Witness for C10: a concrete single-entry hour coordinate fails. -/
theorem hour_delta_unguarded_witness :
    wb2Main cfgStopBeforeStart climOneHour icHourly =
      Except.error MainError.indexError :=
  hour_delta_unguarded.1 cfgStopBeforeStart climOneHour icHourly 0 rfl

lemma labelPos_error_shape {labels : List Nat} {coordName : String} {v : Nat}
    {e : SelError} (h : labelPos labels coordName v = Except.error e) :
    e = SelError.lookupError coordName v := by
  induction labels with
  | nil => simpa [labelPos] using h.symm
  | cons x labels ih =>
    by_cases hx : x = v
    · simp [labelPos, hx] at h
    · simp only [labelPos, if_neg hx] at h
      cases hrec : labelPos labels coordName v with
      | ok i => rw [hrec] at h; simp [Except.map] at h
      | error e2 =>
        rw [hrec] at h
        simp only [Except.map, Except.error.injEq] at h
        exact ih (h ▸ hrec)

lemma labelPos_not_mem {labels : List Nat} {coordName : String} {v : Nat}
    (h : v ∉ labels) :
    labelPos labels coordName v = Except.error (SelError.lookupError coordName v) := by
  induction labels with
  | nil => rfl
  | cons x labels ih =>
    have hx : ¬ x = v := fun he => h (he ▸ List.mem_cons_self x labels)
    have hm : v ∉ labels := fun hv => h (List.mem_cons_of_mem _ hv)
    simp [labelPos, hx, ih hm, Except.map]

lemma mapE_error_of_mem {α β ε : Type} (f : α → Except ε β) :
    ∀ (l : List α) (x : α), x ∈ l → (∀ b, f x ≠ Except.ok b) →
      ∃ x2 ∈ l, ∃ e, f x2 = Except.error e ∧ mapE f l = Except.error e := by
  intro l
  induction l with
  | nil => intro x hx; exact absurd hx (List.not_mem_nil x)
  | cons a t ih =>
    intro x hx hfx
    cases hfa : f a with
    | error e => exact ⟨a, List.mem_cons_self a t, e, hfa, by simp [mapE, hfa]⟩
    | ok b =>
      have hxt : x ∈ t := by
        rcases List.mem_cons.mp hx with h1 | h1
        · exact absurd hfa (h1 ▸ hfx b)
        · exact h1
      obtain ⟨x2, hx2, e, hfx2, hmap⟩ := ih x hxt hfx
      exact ⟨x2, List.mem_cons_of_mem a hx2, e, hfx2, by simp [mapE, hfa, hmap]⟩

lemma mapE_eq_error {α β ε : Type} (f : α → Except ε β) :
    ∀ (l : List α) (e : ε), mapE f l = Except.error e →
      ∃ x ∈ l, f x = Except.error e := by
  intro l
  induction l with
  | nil => intro e h; simp [mapE] at h
  | cons a t ih =>
    intro e h
    cases hfa : f a with
    | error e2 =>
      simp only [mapE, hfa, exceptErrorBind, Except.error.injEq] at h
      exact ⟨a, List.mem_cons_self a t, h ▸ hfa⟩
    | ok b =>
      simp only [mapE, hfa, exceptOkBind] at h
      cases hrec : mapE f t with
      | ok bs => rw [hrec] at h; simp at h
      | error e2 =>
        rw [hrec] at h
        simp only [exceptErrorBind, Except.error.injEq] at h
        obtain ⟨x, hxt, hfx⟩ := ih e2 hrec
        exact ⟨x, List.mem_cons_of_mem a hxt, h ▸ hfx⟩

/-- C6: if any timestamp of the sliced range has a derived (day-of-year,
hour) pair absent from the climatology's coordinate labels (for example
`dayofyear = 366` missing while the range spans a leap day), then
`select_climatology` fails with a lookup error — it never drops the
timestamp or substitutes a default value. -/
theorem select_climatology_missing_label (s : Int × Int) (climatology : Dataset)
    (time_index : List Timestamp) (ts : Timestamp)
    (hmem : ts ∈ pySlice s.1 s.2 time_index) (habs : pairAbsent climatology ts) :
    ∃ coord v, select_climatology s climatology time_index =
      Except.error (SelError.lookupError coord v) := by
  cases hhc : climatology.hourCoord with
  | none =>
    have hdoy : ts.doy ∉ climatology.dayofyear := by
      rcases habs with h | h
      · exact h
      · simp [hhc] at h
    have hfail : ∀ b : Nat,
        labelPos climatology.dayofyear "dayofyear" ts.doy ≠ Except.ok b := by
      intro b hb
      rw [labelPos_not_mem hdoy] at hb
      exact Except.noConfusion hb
    obtain ⟨x2, hx2, e, hfx2, hmap⟩ :=
      mapE_error_of_mem (fun u => labelPos climatology.dayofyear "dayofyear" u.doy)
        (pySlice s.1 s.2 time_index) ts hmem hfail
    refine ⟨"dayofyear", x2.doy, ?_⟩
    have he : e = SelError.lookupError "dayofyear" x2.doy := labelPos_error_shape hfx2
    simp [select_climatology, hhc, hmap, he]
  | some hourLabels =>
    cases hdoyMap : mapE (fun u => labelPos climatology.dayofyear "dayofyear" u.doy)
        (pySlice s.1 s.2 time_index) with
    | error e =>
      obtain ⟨x, hxmem, hfx⟩ := mapE_eq_error _ _ e hdoyMap
      refine ⟨"dayofyear", x.doy, ?_⟩
      have he : e = SelError.lookupError "dayofyear" x.doy := labelPos_error_shape hfx
      simp [select_climatology, hhc, hdoyMap, he]
    | ok poss =>
      have hhour : ts.hour ∉ hourLabels := by
        rcases habs with h | h
        · exfalso
          have hfail : ∀ b : Nat,
              labelPos climatology.dayofyear "dayofyear" ts.doy ≠ Except.ok b := by
            intro b hb
            rw [labelPos_not_mem h] at hb
            exact Except.noConfusion hb
          obtain ⟨x2, hx2, e, hfx2, hmap⟩ :=
            mapE_error_of_mem (fun u => labelPos climatology.dayofyear "dayofyear" u.doy)
              (pySlice s.1 s.2 time_index) ts hmem hfail
          rw [hdoyMap] at hmap
          exact Except.noConfusion hmap
        · simpa [hhc] using h
      have hfail2 : ∀ b : Nat, labelPos hourLabels "hour" ts.hour ≠ Except.ok b := by
        intro b hb
        rw [labelPos_not_mem hhour] at hb
        exact Except.noConfusion hb
      obtain ⟨x2, hx2, e, hfx2, hmap2⟩ :=
        mapE_error_of_mem (fun u => labelPos hourLabels "hour" u.hour)
          (pySlice s.1 s.2 time_index) ts hmem hfail2
      refine ⟨"hour", x2.hour, ?_⟩
      have he : e = SelError.lookupError "hour" x2.hour := labelPos_error_shape hfx2
      simp [select_climatology, hhc, hdoyMap, hmap2, he]

/-- Witness for C6: a climatology whose `dayofyear` labels stop at 3 and a
slice containing a leap-day timestamp (day-of-year 366) fail with a lookup
error. -/
theorem select_climatology_missing_label_witness :
    ∃ coord v, select_climatology (0, 1) climLeap tiLeap =
      Except.error (SelError.lookupError coord v) :=
  select_climatology_missing_label (0, 1) climLeap tiLeap ⟨8784, 366, 0⟩
    (by decide) (Or.inl (by decide))

lemma lookup_append_eq {β : Type} (k : String) :
    ∀ (l1 l2 : List (String × β)), List.lookup k (l1 ++ l2) =
      match List.lookup k l1 with
      | some v => some v
      | none => List.lookup k l2 := by
  intro l1 l2
  induction l1 with
  | nil => simp
  | cons p t ih =>
    obtain ⟨k1, v1⟩ := p
    cases h : (k == k1) with
    | true => simp [List.lookup, h]
    | false => simp [List.lookup, h, ih]

lemma lookup_filtered_neg_one (time_dims : List String) (d : String) :
    ∀ ic : List (String × Int), d ∈ ic.map Prod.fst → d ∉ time_dims →
      List.lookup d ((ic.filter (fun p => decide (p.1 ∉ time_dims))).map
        (fun p => (p.1, (-1 : Int)))) = some (-1) := by
  intro ic
  induction ic with
  | nil => intro h; simp at h
  | cons p t ih =>
    intro hmem hnd
    obtain ⟨k1, v1⟩ := p
    by_cases hdk : d = k1
    · subst hdk
      simp [List.filter_cons, hnd, List.lookup]
    · have h1 : d ∈ t.map Prod.fst := by
        rcases (by simpa using hmem : d = k1 ∨ d ∈ t.map Prod.fst) with h | h
        · exact absurd h hdk
        · exact h
      by_cases hk1 : k1 ∈ time_dims
      · have hdrop : decide (k1 ∉ time_dims) = false := by simp [hk1]
        simp only [List.filter_cons, hdrop, Bool.false_eq_true, if_false]
        exact ih h1 hnd
      · have hkeep : decide (k1 ∉ time_dims) = true := by simp [hk1]
        have hne : (d == k1) = false := by simp [hdk]
        simp only [List.filter_cons, hkeep, if_true, List.map_cons, List.lookup,
          hne]
        exact ih h1 hnd

lemma lookup_filtered_none (time_dims : List String) (k : String) :
    ∀ ic : List (String × Int), List.lookup k ic = none →
      List.lookup k ((ic.filter (fun p => decide (p.1 ∉ time_dims))).map
        (fun p => (p.1, (-1 : Int)))) = none := by
  intro ic
  induction ic with
  | nil => intro _; simp
  | cons p t ih =>
    intro h
    obtain ⟨k1, v1⟩ := p
    have hne : (k == k1) = false := by
      cases hkk : (k == k1) with
      | true => simp [List.lookup, hkk] at h
      | false => rfl
    have ht : List.lookup k t = none := by
      simpa [List.lookup, hne] using h
    by_cases hk1 : k1 ∈ time_dims
    · have hdrop : decide (k1 ∉ time_dims) = false := by simp [hk1]
      simp only [List.filter_cons, hdrop, Bool.false_eq_true, if_false]
      exact ih ht
    · have hkeep : decide (k1 ∉ time_dims) = true := by simp [hk1]
      simp only [List.filter_cons, hkeep, if_true, List.map_cons, List.lookup, hne]
      exact ih ht

/-- C8: the destination chunk layout maps every input dimension that is not
a periodic time dimension to `-1` (a single chunk spanning the whole
dimension) and maps the output `time` dimension to the resolved chunk size.
(The input is a periodic climatology, so its chunked dimensions do not
include the output dimension `time` — hypothesis `hno`.) -/
theorem output_chunks_layout (climatology : Dataset) (ic : List (String × Int))
    (cs : Int) (hno : List.lookup "time" ic = none) :
    (∀ d, d ∈ ic.map Prod.fst → d ∉ timeDimsOf climatology →
      List.lookup d (outputChunksOf ic (timeDimsOf climatology) cs) = some (-1)) ∧
    List.lookup "time" (outputChunksOf ic (timeDimsOf climatology) cs) = some cs := by
  have hbase : List.lookup "time"
      ((ic.filter (fun p => decide (p.1 ∉ timeDimsOf climatology))).map
        (fun p => (p.1, (-1 : Int)))) = none :=
    lookup_filtered_none (timeDimsOf climatology) "time" ic hno
  have hset : outputChunksOf ic (timeDimsOf climatology) cs =
      (ic.filter (fun p => decide (p.1 ∉ timeDimsOf climatology))).map
        (fun p => (p.1, (-1 : Int))) ++ [("time", cs)] := by
    unfold outputChunksOf dictSet
    rw [hbase]
    rfl
  constructor
  · intro d hd hnd
    rw [hset, lookup_append_eq,
      lookup_filtered_neg_one (timeDimsOf climatology) d ic hd hnd]
  · rw [hset, lookup_append_eq, hbase]
    simp [List.lookup]

/-- Witness for C8: with an hourly input chunked as
`dayofyear = 30, hour = 4, latitude = 64` and resolved chunk size 120, the
layout maps `latitude` to `-1` and `time` to 120. -/
theorem output_chunks_layout_witness :
    List.lookup "latitude" (outputChunksOf icHourly (timeDimsOf climHourly) 120) =
      some (-1) ∧
    List.lookup "time" (outputChunksOf icHourly (timeDimsOf climHourly) 120) =
      some 120 :=
  ⟨(output_chunks_layout climHourly icHourly 120 (by decide)).1 "latitude"
      (by decide) (by decide),
    (output_chunks_layout climHourly icHourly 120 (by decide)).2⟩

lemma pySlice_natCast {α : Type} (a b : Nat) (l : List α) :
    pySlice (a : Int) (b : Int) l = (l.drop a).take (b - a) := by
  have h1 : ((b : Int) - (a : Int)).toNat = b - a := by omega
  have h2 : ((a : Int)).toNat = a := by omega
  unfold pySlice
  rw [h1, h2]

lemma flatten_chunks {α : Type} (c : Nat) (hc : 0 < c) :
    ∀ (k : Nat) (l : List α), (l.length + c - 1) / c = k →
      ((List.range k).map (fun i => (l.drop (i * c)).take c)).flatten = l := by
  intro k
  induction k with
  | zero =>
    intro l hk
    have hlen : l.length = 0 := by
      by_contra hne
      have h2 : 1 ≤ (l.length + c - 1) / c :=
        (Nat.le_div_iff_mul_le hc).mpr (by omega)
      rw [hk] at h2
      omega
    rw [List.length_eq_zero.mp hlen]
    simp
  | succ k ih =>
    intro l hk
    have hlen : 1 ≤ l.length := by
      by_contra hne
      have h0 : l.length = 0 := by omega
      rw [h0] at hk
      have h1 : (0 + c - 1) / c = 0 := Nat.div_eq_of_lt (by omega)
      rw [h1] at hk
      omega
    have hk1 : (l.length - 1) / c = k := by
      have h3 : l.length + c - 1 = (l.length - 1) + c := by omega
      rw [h3, Nat.add_div_right _ hc] at hk
      omega
    have hk2 : ((l.drop c).length + c - 1) / c = k := by
      rw [List.length_drop]
      rcases Nat.le_total l.length c with hle | hge
      · have h4 : l.length - c = 0 := by omega
        rw [h4]
        have h5 : (0 + c - 1) / c = 0 := Nat.div_eq_of_lt (by omega)
        have h6 : (l.length - 1) / c = 0 := Nat.div_eq_of_lt (by omega)
        rw [h5]
        rw [h6] at hk1
        exact hk1
      · have h4 : l.length - c + c - 1 = l.length - 1 := by omega
        rw [h4]
        exact hk1
    rw [List.range_succ_eq_map, List.map_cons, List.map_map, List.flatten_cons]
    have hcomp : ((fun i => (l.drop (i * c)).take c) ∘ Nat.succ)
        = fun i => ((l.drop c).drop (i * c)).take c := by
      funext i
      simp only [Function.comp]
      rw [List.drop_drop, Nat.succ_mul, Nat.add_comm (i * c) c]
    rw [hcomp, ih (l.drop c) hk2]
    simp

/-- C4: for a positive chunk size and a non-empty time index, the chunk
count is `ceil(length / chunk_size)`; the emitted descriptors are exactly
the slices `(i * chunk_size, (i + 1) * chunk_size)`; applied to the index
they partition it with no gap, no overlap and in order (their selected
segments concatenate back to the index); the i-th descriptor selects
exactly the index range `[i * chunk_size, min((i + 1) * chunk_size,
length))`; and every descriptor except possibly the last selects exactly
`chunk_size` elements. -/
theorem chunk_dispatch_partition (c : Nat) (l : List Int) (hc : 0 < c)
    (hl : l ≠ []) :
    ceilDivE (l.length : Int) (c : Int) =
      Except.ok (((l.length + c - 1) / c : Nat) : Int) ∧
    workSlices (c : Int) (timeChunkStarts ((l.length + c - 1) / c) (c : Int)) =
      (List.range ((l.length + c - 1) / c)).map
        (fun (i : Nat) => (((i * c : Nat) : Int), ((i * c + c : Nat) : Int))) ∧
    ((workSlices (c : Int)
        (timeChunkStarts ((l.length + c - 1) / c) (c : Int))).map
      (fun p => pySlice p.1 p.2 l)).flatten = l ∧
    (∀ i : Nat, i < (l.length + c - 1) / c →
      (pySlice ((i * c : Nat) : Int) ((i * c + c : Nat) : Int) l).length =
        min ((i + 1) * c) l.length - i * c) ∧
    (∀ i : Nat, i + 1 < (l.length + c - 1) / c →
      (pySlice ((i * c : Nat) : Int) ((i * c + c : Nat) : Int) l).length = c) := by
  have hcne : ((c : Nat) : Int) ≠ 0 := Int.natCast_ne_zero.mpr (by omega)
  have hws : workSlices (c : Int) (timeChunkStarts ((l.length + c - 1) / c) (c : Int)) =
      (List.range ((l.length + c - 1) / c)).map
        (fun (i : Nat) => (((i * c : Nat) : Int), ((i * c + c : Nat) : Int))) := by
    simp only [workSlices, timeChunkStarts, List.map_map]
    apply List.map_congr_left
    intro i _
    simp only [Function.comp]
    refine Prod.ext ?_ ?_ <;> push_cast <;> ring
  have hpys : ∀ i : Nat, pySlice ((i * c : Nat) : Int) ((i * c + c : Nat) : Int) l =
      (l.drop (i * c)).take c := by
    intro i
    rw [pySlice_natCast, Nat.add_sub_cancel_left]
  refine ⟨?_, hws, ?_, ?_, ?_⟩
  · rw [ceilDivE, if_neg hcne, ceilDivInt_natCast l.length c hc]
  · rw [hws, List.map_map]
    have hcomp2 : ((fun p : Int × Int => pySlice p.1 p.2 l) ∘
        fun (i : Nat) => (((i * c : Nat) : Int), ((i * c + c : Nat) : Int)))
        = fun i => (l.drop (i * c)).take c := by
      funext i
      simp only [Function.comp]
      exact hpys i
    rw [hcomp2]
    exact flatten_chunks c hc _ l rfl
  · intro i _
    rw [hpys i, List.length_take, List.length_drop]
    have h1 : (i + 1) * c = i * c + c := Nat.succ_mul i c
    rw [h1]
    generalize i * c = A
    omega
  · intro i hi
    have hlen1 : 0 < l.length := List.length_pos.mpr hl
    have hn : (l.length + c - 1) / c = (l.length - 1) / c + 1 := by
      have h3 : l.length + c - 1 = (l.length - 1) + c := by omega
      rw [h3, Nat.add_div_right _ hc]
    have h4 : i + 1 ≤ (l.length - 1) / c := by
      rw [hn] at hi
      generalize (l.length - 1) / c = D at hi ⊢
      omega
    have hub : (i + 1) * c ≤ l.length - 1 :=
      le_trans (Nat.mul_le_mul_right c h4) (Nat.div_mul_le_self _ _)
    rw [hpys i, List.length_take, List.length_drop]
    rw [Nat.succ_mul i c] at hub
    generalize hA : i * c = A at hub ⊢
    omega

/-- Witness for C4: the dispatcher's slices over a five-element index with
chunk size 2 concatenate back to the index. -/
theorem chunk_dispatch_partition_witness :
    ((workSlices ((2 : Nat) : Int)
        (timeChunkStarts ((([10, 20, 30, 40, 50] : List Int).length + 2 - 1) / 2)
          ((2 : Nat) : Int))).map
      (fun p => pySlice p.1 p.2 ([10, 20, 30, 40, 50] : List Int))).flatten =
      [10, 20, 30, 40, 50] :=
  (chunk_dispatch_partition 2 [10, 20, 30, 40, 50] (by decide) (by decide)).2.2.1
